import Mathlib

set_option maxRecDepth 8000
set_option linter.unusedVariables false

/-!
Shallow embedding of the sudoku core (`src/sudoku.rs`).

A `Grid` models the Rust `[[u8; 9]; 9]`: a total function from (row, col)
to the digit stored there (0 = blank).  The random shuffles performed by
`fastrand::shuffle` are modelled by universally quantified lists supplied
as extra arguments (a shuffle outcome is exactly a permutation of the
array being shuffled).
-/

/-- A cell position `(row, col)`, both in `[0,8]`.  Models `GridPos`. -/
abbrev Pos := Fin 9 × Fin 9

/-- 9x9 Sudoku grid in reading order; 1-9 represents a digit, 0 a blank. -/
abbrev Grid := Fin 9 → Fin 9 → Nat

/-- The plain array of 1..=9 digits (`DIGITS_ARRAY`). -/
def DIGITS_ARRAY : List Nat := [1, 2, 3, 4, 5, 6, 7, 8, 9]

/-- The number of random blanks to create when generating a puzzle. -/
def TARGET_BLANKS_TO_GENERATE : Nat := 35

/-- The upper limit of random blanks that can be created. -/
def MAX_BLANKS_TO_GENERATE : Nat := 64

/-- Row view of a puzzle (`horizontal_slice`): `puzzle.get(row)` yields
`None` exactly when `row ≥ 9`. -/
def horizontal_slice (g : Grid) (row : Nat) : Option (List Nat) :=
  if h : row < 9 then some ((List.finRange 9).map fun c => g ⟨row, h⟩ c) else none

/-- Column view of a puzzle (`vertical_slice`): `None` when `col ∉ 0..9`. -/
def vertical_slice (g : Grid) (col : Nat) : Option (List Nat) :=
  if h : col < 9 then some ((List.finRange 9).map fun r => g r ⟨col, h⟩) else none

/-- Square (3x3 box) view of a puzzle (`square_slice`), with the source's
unrolled nine-way table; `None` for any square index outside `[0,8]`. -/
def square_slice (g : Grid) (square : Nat) : Option (List Nat) :=
  match square with
  | 0 => some [g 0 0, g 0 1, g 0 2, g 1 0, g 1 1, g 1 2, g 2 0, g 2 1, g 2 2]
  | 1 => some [g 0 3, g 0 4, g 0 5, g 1 3, g 1 4, g 1 5, g 2 3, g 2 4, g 2 5]
  | 2 => some [g 0 6, g 0 7, g 0 8, g 1 6, g 1 7, g 1 8, g 2 6, g 2 7, g 2 8]
  | 3 => some [g 3 0, g 3 1, g 3 2, g 4 0, g 4 1, g 4 2, g 5 0, g 5 1, g 5 2]
  | 4 => some [g 3 3, g 3 4, g 3 5, g 4 3, g 4 4, g 4 5, g 5 3, g 5 4, g 5 5]
  | 5 => some [g 3 6, g 3 7, g 3 8, g 4 6, g 4 7, g 4 8, g 5 6, g 5 7, g 5 8]
  | 6 => some [g 6 0, g 6 1, g 6 2, g 7 0, g 7 1, g 7 2, g 8 0, g 8 1, g 8 2]
  | 7 => some [g 6 3, g 6 4, g 6 5, g 7 3, g 7 4, g 7 5, g 8 3, g 8 4, g 8 5]
  | 8 => some [g 6 6, g 6 7, g 6 8, g 7 6, g 7 7, g 7 8, g 8 6, g 8 7, g 8 8]
  | _ => none

/-- The loop of `slice_has_unique_digits`: walks the slice keeping the
`unique_digits: [bool; 9]` seen-set, failing on a repeated nonzero digit. -/
def slice_unique_go : List Nat → List Bool → Bool
  | [], _ => true
  | d :: rest, seen =>
    if d = 0 then slice_unique_go rest seen
    else if seen.getD (d - 1) false then false
    else slice_unique_go rest (seen.set (d - 1) true)

/-- Models `slice_has_unique_digits`: no nonzero digit repeats (0 is ignored). -/
def slice_has_unique_digits (slice : List Nat) : Bool :=
  slice_unique_go slice (List.replicate 9 false)

/-- Models `is_valid_puzzle`: every row, column and square slice of index 0..=8
has all unique (nonzero) digits. -/
def is_valid_puzzle (g : Grid) : Bool :=
  (List.range 9).all fun index =>
    match horizontal_slice g index, vertical_slice g index, square_slice g index with
    | some hs, some vs, some ss =>
      slice_has_unique_digits hs && slice_has_unique_digits vs && slice_has_unique_digits ss
    | _, _, _ => false

/-- Models `blanks`: the row-major list of positions holding 0. -/
def blanks (g : Grid) : List Pos :=
  (List.finRange 9).flatMap fun row =>
    (List.finRange 9).filterMap fun col =>
      if g row col = 0 then some (row, col) else none

/-- Models the assignment `puzzle[row][col] = digit`: overwrite one cell. -/
def setCell (g : Grid) (p : Pos) (d : Nat) : Grid :=
  fun i j => if i = p.1 ∧ j = p.2 then d else g i j

/-- The digit loop of `find_solution`: try each digit at position `p`,
skip placements that invalidate the grid, return the first solution the
continuation `f` (the search over the remaining blanks) produces. -/
def find_go (f : Grid → Option Grid) (g : Grid) (p : Pos) : List Nat → Option Grid
  | [] => none
  | d :: ds =>
    let g2 := setCell g p d
    if is_valid_puzzle g2 then
      match f g2 with
      | some s => some s
      | none => find_go f g p ds
    else find_go f g p ds

/-- Models `find_solution`: depth-first backtracking; an empty blank list means
the current grid is a solution. -/
def find_solution (digits : List Nat) : List Pos → Grid → Option Grid
  | [], g => some g
  | p :: rest, g => find_go (fun g2 => find_solution digits rest g2) g p digits

/-- The digit loop of `find_solutions`: try every digit, accumulating the
solutions each valid placement leads to. -/
def finds_go (f : Grid → List Grid → List Grid) (g : Grid) (p : Pos) :
    List Nat → List Grid → List Grid
  | [], sols => sols
  | d :: ds, sols =>
    let g2 := setCell g p d
    if is_valid_puzzle g2 then finds_go f g p ds (f g2 sols)
    else finds_go f g p ds sols

/-- Models `find_solutions`: exhaustive backtracking, pushing each complete
assignment onto the accumulator. -/
def find_solutions (digits : List Nat) : List Pos → Grid → List Grid → List Grid
  | [], g, sols => sols ++ [g]
  | p :: rest, g, sols => finds_go (fun g2 => find_solutions digits rest g2) g p digits sols

/-- The digit loop of `count_solutions`: after each recursive call the
counter is checked and the loop aborts once it exceeds 1. -/
def count_go (f : Grid → Nat → Nat) (g : Grid) (p : Pos) : List Nat → Nat → Nat
  | [], c => c
  | d :: ds, c =>
    let g2 := setCell g p d
    if is_valid_puzzle g2 then
      let c2 := f g2 c
      if 1 < c2 then c2 else count_go f g p ds c2
    else count_go f g p ds c

/-- Models `count_solutions`: counts solutions into `count_cache`, aborting the
search as soon as the count exceeds 1. -/
def count_solutions (digits : List Nat) : List Pos → Grid → Nat → Nat
  | [], _, c => c + 1
  | p :: rest, g, c => count_go (fun g2 => count_solutions digits rest g2) g p digits c

/-- Models `solve`: all solutions of a puzzle (empty for an invalid puzzle). -/
def solve (g : Grid) : List Grid :=
  if !is_valid_puzzle g then []
  else if (blanks g).isEmpty then [g]
  else find_solutions DIGITS_ARRAY (blanks g) g []

/-- Models `solve_any`: one solution of a puzzle, if any. -/
def solve_any (g : Grid) : Option Grid :=
  if !is_valid_puzzle g then none
  else if (blanks g).isEmpty then some g
  else find_solution DIGITS_ARRAY (blanks g) g

/-- Models `has_unique_solution`: valid and the bounded solution count is 1. -/
def has_unique_solution (g : Grid) : Bool :=
  if !is_valid_puzzle g then false
  else if (blanks g).isEmpty then true
  else count_solutions DIGITS_ARRAY (blanks g) g 0 == 1

/-- Blank an entire row (the inner loop of `create_random_blank_row`). -/
def blankRow (g : Grid) (r : Fin 9) : Grid :=
  fun i j => if i = r then 0 else g i j

/-- Blank an entire column (the inner loop of `create_random_blank_col`). -/
def blankCol (g : Grid) (c : Fin 9) : Grid :=
  fun i j => if j = c then 0 else g i j

/-- The carving loop of `create_random_blank_positions`: in the shuffled
position order, blank a cell and keep the blank only when the puzzle still
has a unique solution, stopping once `count` blanks were created. -/
def carve_loop : Grid → List Pos → Nat → Nat → Grid
  | g, [], _, _ => g
  | g, p :: ps, count, blanks_created =>
    if blanks_created = count then g
    else
      let g2 := setCell g p 0
      if has_unique_solution g2 then carve_loop g2 ps count (blanks_created + 1)
      else carve_loop g ps count blanks_created

/-- Models `create_random_blank_positions`, with the shuffled position order as an
explicit argument: rejects a blank count outside `1..=64` up front. -/
def create_random_blank_positions (g : Grid) (count : Nat) (positions : List Pos) :
    Option Grid :=
  if 1 ≤ count ∧ count ≤ MAX_BLANKS_TO_GENERATE then
    some (carve_loop g positions count 0)
  else none

/-- Models `create_random_blank_row`, with the shuffled row order as an explicit
argument: blank the first row that keeps the solution unique. -/
def create_random_blank_row (g : Grid) : List (Fin 9) → Option Grid
  | [] => none
  | r :: rs =>
    let g2 := blankRow g r
    if has_unique_solution g2 then some g2 else create_random_blank_row g rs

/-- Models `create_random_blank_col`, with the shuffled column order explicit. -/
def create_random_blank_col (g : Grid) : List (Fin 9) → Option Grid
  | [] => none
  | c :: cs =>
    let g2 := blankCol g c
    if has_unique_solution g2 then some g2 else create_random_blank_col g cs

/-- The all-blank grid the generator starts from. -/
def emptyGrid : Grid := fun _ _ => 0

/-- All 81 positions in row-major order. -/
def allPositions : List Pos :=
  (List.finRange 9).flatMap fun row => (List.finRange 9).map fun col => (row, col)

/-- Models `create_random_solution`, `digits` being the outcome of the digit
shuffle.  The Rust retry loop is modelled as its single iteration: the
search is proved below to succeed whenever `digits` is a permutation of
`DIGITS_ARRAY`, so the loop always returns from its first iteration. -/
def create_random_solution (digits : List Nat) : Option Grid :=
  find_solution digits allPositions emptyGrid

/-- The carving pipeline of `generate` applied to a seed solution: each
step falls back to its input (`unwrap_or`) when it yields no puzzle. -/
def generate_from (s : Grid) (positions : List Pos) (rows cols : List (Fin 9)) : Grid :=
  let p1 := (create_random_blank_positions s TARGET_BLANKS_TO_GENERATE positions).getD s
  let p2 := (create_random_blank_row p1 rows).getD p1
  (create_random_blank_col p2 cols).getD p2

/-- Models `generate`, with all four shuffle outcomes as explicit arguments. -/
def generate (digits : List Nat) (positions : List Pos) (rows cols : List (Fin 9)) :
    Option Grid :=
  (create_random_solution digits).map fun s => generate_from s positions rows cols

/-! Specification-side definitions (from the spec's words, for the
statements of the claims). -/

/-- Clamp a natural number into `Fin 9`. -/
def fin9 (n : Nat) : Fin 9 := ⟨n % 9, Nat.mod_lt n (by decide)⟩

/-- The cells of row `i`, in column order. -/
def rowCells (i : Fin 9) : List Pos := (List.finRange 9).map fun c => (i, c)

/-- The cells of column `i`, in row order. -/
def colCells (i : Fin 9) : List Pos := (List.finRange 9).map fun r => (r, i)

/-- The cells of box `b`: rows `3*(b/3)..3*(b/3)+3`, cols `3*(b%3)..3*(b%3)+3`,
in row-major order (the spec's box formula). -/
def boxCells (b : Fin 9) : List Pos :=
  (List.range 3).flatMap fun dr =>
    (List.range 3).map fun dc =>
      (fin9 (3 * (b.val / 3) + dr), fin9 (3 * (b.val % 3) + dc))

/-- The digits a list of cells holds in a grid. -/
def unitList (g : Grid) (cells : List Pos) : List Nat :=
  cells.map fun p => g p.1 p.2

/-- A unit contains no repeated nonzero digit (zeros never conflict). -/
def noRepeatedNonzero (l : List Nat) : Prop :=
  (l.filter fun d => d != 0).Nodup

/-- All digits of the grid lie in `[0,9]` (the claims' digit range). -/
def digitsOk (g : Grid) : Prop := ∀ i j : Fin 9, g i j ≤ 9

instance : DecidablePred digitsOk := fun g =>
  inferInstanceAs (Decidable (∀ i j : Fin 9, g i j ≤ 9))

/-- Blank every position in a given subset of cells. -/
def blankOut (g : Grid) (ps : Pos → Bool) : Grid :=
  fun i j => if ps (i, j) then 0 else g i j

/-- Lexicographic order on grids induced by a position order: the first
listed position where the grids differ carries a smaller digit. -/
def gridLexLt : List Pos → Grid → Grid → Prop
  | [], _, _ => False
  | p :: rest, S, T =>
    S p.1 p.2 < T p.1 p.2 ∨ (S p.1 p.2 = T p.1 p.2 ∧ gridLexLt rest S T)

/-- Build a grid from a row-major list of rows (for concrete instances). -/
def gridOfLists (l : List (List Nat)) : Grid :=
  fun i j => (l.getD i.val []).getD j.val 0

/-- The solutions contributed by one digit choice at position `p`. -/
def digitBranch (digits : List Nat) (rest : List Pos) (g : Grid) (p : Pos) (d : Nat) :
    List Grid :=
  if is_valid_puzzle (setCell g p d) then
    find_solutions digits rest (setCell g p d) []
  else []

/-- A concrete fully solved grid, used to exhibit solutions. -/
def SEED_SOLUTION : Grid := gridOfLists [
  [1, 2, 3, 4, 5, 6, 7, 8, 9],
  [4, 5, 6, 7, 8, 9, 1, 2, 3],
  [7, 8, 9, 1, 2, 3, 4, 5, 6],
  [2, 3, 1, 5, 6, 4, 8, 9, 7],
  [5, 6, 4, 8, 9, 7, 2, 3, 1],
  [8, 9, 7, 2, 3, 1, 5, 6, 4],
  [3, 1, 2, 6, 4, 5, 9, 7, 8],
  [6, 4, 5, 9, 7, 8, 3, 1, 2],
  [9, 7, 8, 3, 1, 2, 6, 4, 5]]

/-- The grid `SEED_SOLUTION` with one cell blanked (uniquely solvable). -/
def ONE_BLANK : Grid :=
  fun i j => if i = 0 ∧ j = 0 then 0 else SEED_SOLUTION i j

/-- An invalid grid: two 1s in the first row. -/
def INVALID_GRID : Grid :=
  fun i j => if i = 0 ∧ j = 1 then 1 else SEED_SOLUTION i j

/-! ## Characterization of the validity check -/

lemma getD_set_true (seen : List Bool) (k m : Nat) (hk : k < seen.length) :
    (seen.set k true).getD m false = if m = k then true else seen.getD m false := by
  rcases eq_or_ne m k with h | h
  · subst h
    simp [List.getElem?_set_self hk]
  · simp [List.getElem?_set_ne (Ne.symm h), h]

lemma slice_unique_go_iff (l : List Nat) :
    ∀ seen : List Bool, seen.length = 9 → (∀ d ∈ l, d ≤ 9) →
      (slice_unique_go l seen = true ↔
        (l.filter fun d => d != 0).Nodup ∧
          ∀ d ∈ l, d ≠ 0 → seen.getD (d - 1) false = false) := by
  induction l with
  | nil => intro seen _ _; simp [slice_unique_go]
  | cons d rest ih =>
    intro seen hlen hle
    have hrest : ∀ x ∈ rest, x ≤ 9 := fun x hx => hle x (List.mem_cons_of_mem _ hx)
    by_cases hd : d = 0
    · subst hd
      rw [slice_unique_go, if_pos rfl, ih seen hlen hrest]
      constructor
      · rintro ⟨h1, h2⟩
        refine ⟨by simpa using h1, ?_⟩
        intro e he hne
        rcases List.mem_cons.mp he with rfl | he'
        · exact absurd rfl hne
        · exact h2 e he' hne
      · rintro ⟨h1, h2⟩
        exact ⟨by simpa using h1, fun e he hne => h2 e (List.mem_cons_of_mem _ he) hne⟩
    · have hd9 : d ≤ 9 := hle d (List.mem_cons_self _ _)
      have hklt : d - 1 < seen.length := by omega
      rw [slice_unique_go, if_neg hd]
      by_cases hs : seen.getD (d - 1) false = true
      · rw [if_pos hs]
        constructor
        · intro h; cases h
        · rintro ⟨-, h2⟩
          have := h2 d (List.mem_cons_self _ _) hd
          rw [this] at hs; cases hs
      · rw [if_neg hs]
        rw [Bool.not_eq_true] at hs
        rw [ih (seen.set (d - 1) true) (by simp [hlen]) hrest]
        have hset : ∀ e, e ≠ 0 → e ≤ 9 →
            ((seen.set (d - 1) true).getD (e - 1) false = false ↔
              e ≠ d ∧ seen.getD (e - 1) false = false) := by
          intro e hne hle9
          rw [getD_set_true seen (d - 1) (e - 1) hklt]
          by_cases hde : e - 1 = d - 1
          · have : e = d := by omega
            simp [hde, this]
          · have : e ≠ d := by omega
            simp [hde, this]
        constructor
        · rintro ⟨h1, h2⟩
          have hnotin : d ∉ rest.filter fun x => x != 0 := by
            intro hmem
            rcases List.mem_filter.mp hmem with ⟨hmem', -⟩
            have := (hset d hd hd9).mp (h2 d hmem' hd)
            exact this.1 rfl
          refine ⟨?_, ?_⟩
          · rw [List.filter_cons, if_pos (by simpa using hd)]
            exact List.Nodup.cons hnotin h1
          · intro e he hne
            rcases List.mem_cons.mp he with rfl | he'
            · exact hs
            · exact ((hset e hne (hrest e he')).mp (h2 e he' hne)).2
        · rintro ⟨h1, h2⟩
          rw [List.filter_cons, if_pos (by simpa using hd)] at h1
          rcases List.nodup_cons.mp h1 with ⟨hnotin, h1'⟩
          refine ⟨h1', ?_⟩
          intro e he hne
          rw [hset e hne (hrest e he)]
          refine ⟨?_, h2 e (List.mem_cons_of_mem _ he) hne⟩
          rintro rfl
          exact hnotin (List.mem_filter.mpr ⟨he, by simpa using hne⟩)

lemma slice_has_unique_digits_iff (l : List Nat) (hle : ∀ d ∈ l, d ≤ 9) :
    slice_has_unique_digits l = true ↔ (l.filter fun d => d != 0).Nodup := by
  unfold slice_has_unique_digits
  rw [slice_unique_go_iff l (List.replicate 9 false) (by simp) hle]
  have h0 : ∀ m : Nat, (List.replicate 9 false).getD m false = false := by
    intro m
    rw [List.getD_eq_getElem?_getD]
    rcases lt_or_ge m 9 with h | h
    · rw [List.getElem?_replicate]
      simp [h]
    · rw [List.getElem?_eq_none (by simpa using h)]
      rfl
  constructor
  · rintro ⟨h1, -⟩
    exact h1
  · intro h1
    exact ⟨h1, fun d _ _ => h0 (d - 1)⟩

lemma horizontal_slice_eq (g : Grid) (i : Fin 9) :
    horizontal_slice g i.val = some (unitList g (rowCells i)) := by
  unfold horizontal_slice unitList rowCells
  rw [dif_pos i.isLt, List.map_map]
  rfl

lemma vertical_slice_eq (g : Grid) (i : Fin 9) :
    vertical_slice g i.val = some (unitList g (colCells i)) := by
  unfold vertical_slice unitList colCells
  rw [dif_pos i.isLt, List.map_map]
  rfl

lemma square_slice_eq (g : Grid) (b : Fin 9) :
    square_slice g b.val = some (unitList g (boxCells b)) := by
  fin_cases b <;> rfl

lemma is_valid_puzzle_iff_units (g : Grid) :
    is_valid_puzzle g = true ↔
      ∀ i : Fin 9,
        slice_has_unique_digits (unitList g (rowCells i)) = true ∧
          slice_has_unique_digits (unitList g (colCells i)) = true ∧
          slice_has_unique_digits (unitList g (boxCells i)) = true := by
  unfold is_valid_puzzle
  rw [List.all_eq_true]
  constructor
  · intro h i
    have hi := h i.val (List.mem_range.mpr i.isLt)
    rw [horizontal_slice_eq g i, vertical_slice_eq g i, square_slice_eq g i] at hi
    simp only [Bool.and_eq_true] at hi
    exact ⟨hi.1.1, hi.1.2, hi.2⟩
  · intro h n hn
    rw [List.mem_range] at hn
    have hi := h ⟨n, hn⟩
    rw [show n = (⟨n, hn⟩ : Fin 9).val from rfl, horizontal_slice_eq g ⟨n, hn⟩,
      vertical_slice_eq g ⟨n, hn⟩, square_slice_eq g ⟨n, hn⟩]
    simp only [Bool.and_eq_true]
    exact ⟨⟨hi.1, hi.2.1⟩, hi.2.2⟩

lemma unitList_digits_le (g : Grid) (hg : digitsOk g) (cells : List Pos) :
    ∀ d ∈ unitList g cells, d ≤ 9 := by
  intro d hd
  rcases List.mem_map.mp hd with ⟨p, -, rfl⟩
  exact hg p.1 p.2

lemma is_valid_puzzle_iff_noRepeat (g : Grid) (hg : digitsOk g) :
    is_valid_puzzle g = true ↔
      ∀ i : Fin 9,
        noRepeatedNonzero (unitList g (rowCells i)) ∧
          noRepeatedNonzero (unitList g (colCells i)) ∧
          noRepeatedNonzero (unitList g (boxCells i)) := by
  rw [is_valid_puzzle_iff_units]
  unfold noRepeatedNonzero
  constructor
  · intro h i
    rcases h i with ⟨h1, h2, h3⟩
    exact ⟨(slice_has_unique_digits_iff _ (unitList_digits_le g hg _)).mp h1,
      (slice_has_unique_digits_iff _ (unitList_digits_le g hg _)).mp h2,
      (slice_has_unique_digits_iff _ (unitList_digits_le g hg _)).mp h3⟩
  · intro h i
    rcases h i with ⟨h1, h2, h3⟩
    exact ⟨(slice_has_unique_digits_iff _ (unitList_digits_le g hg _)).mpr h1,
      (slice_has_unique_digits_iff _ (unitList_digits_le g hg _)).mpr h2,
      (slice_has_unique_digits_iff _ (unitList_digits_le g hg _)).mpr h3⟩

/-! ## Basic facts about `blanks`, `setCell`, `allPositions` -/

lemma setCell_self (g : Grid) (p : Pos) (d : Nat) : setCell g p d p.1 p.2 = d := by
  simp [setCell]

lemma setCell_of_ne (g : Grid) (p : Pos) (d : Nat) (i j : Fin 9)
    (h : ¬(i = p.1 ∧ j = p.2)) : setCell g p d i j = g i j := by
  simp only [setCell, if_neg h]

lemma setCell_of_ne_pos (g : Grid) (p q : Pos) (d : Nat) (h : q ≠ p) :
    setCell g p d q.1 q.2 = g q.1 q.2 := by
  apply setCell_of_ne
  rintro ⟨h1, h2⟩
  exact h (Prod.ext h1 h2)

lemma mem_blanks (g : Grid) (q : Pos) : q ∈ blanks g ↔ g q.1 q.2 = 0 := by
  unfold blanks
  rw [List.mem_flatMap]
  constructor
  · rintro ⟨row, -, hq⟩
    rcases List.mem_filterMap.mp hq with ⟨col, -, hcol⟩
    by_cases h : g row col = 0
    · rw [if_pos h] at hcol
      cases hcol
      exact h
    · rw [if_neg h] at hcol
      cases hcol
  · intro h
    exact ⟨q.1, List.mem_finRange _,
      List.mem_filterMap.mpr ⟨q.2, List.mem_finRange _, by rw [if_pos h]⟩⟩

lemma mem_blanks_row (g : Grid) (r : Fin 9) (x : Pos)
    (hx : x ∈ (List.finRange 9).filterMap fun col =>
      if g r col = 0 then some (r, col) else none) : x.1 = r := by
  rcases List.mem_filterMap.mp hx with ⟨col, -, hcol⟩
  by_cases h : g r col = 0
  · rw [if_pos h] at hcol
    cases hcol
    rfl
  · rw [if_neg h] at hcol
    cases hcol

lemma blanks_nodup (g : Grid) : (blanks g).Nodup := by
  unfold blanks
  rw [List.nodup_flatMap]
  constructor
  · intro row _
    apply List.Nodup.filterMap ?_ (List.nodup_finRange 9)
    intro a b c hca hcb
    rw [Option.mem_def] at hca hcb
    by_cases h1 : g row a = 0
    · rw [if_pos h1] at hca
      by_cases h2 : g row b = 0
      · rw [if_pos h2] at hcb
        cases hca
        cases hcb
        rfl
      · rw [if_neg h2] at hcb
        cases hcb
    · rw [if_neg h1] at hca
      cases hca
  · apply List.Pairwise.imp ?_ (List.nodup_finRange 9)
    intro r1 r2 hne x hx1 hx2
    exact hne (by rw [← mem_blanks_row g r1 x hx1, ← mem_blanks_row g r2 x hx2])

lemma blanks_isEmpty_iff (g : Grid) :
    (blanks g).isEmpty = true ↔ ∀ i j : Fin 9, g i j ≠ 0 := by
  rw [List.isEmpty_iff, List.eq_nil_iff_forall_not_mem]
  constructor
  · intro h i j hij
    exact h (i, j) ((mem_blanks g (i, j)).mpr hij)
  · intro h q hq
    exact h q.1 q.2 ((mem_blanks g q).mp hq)

lemma mem_allPositions (q : Pos) : q ∈ allPositions := by
  unfold allPositions
  rw [List.mem_flatMap]
  exact ⟨q.1, List.mem_finRange _, List.mem_map.mpr ⟨q.2, List.mem_finRange _, rfl⟩⟩

lemma allPositions_nodup : allPositions.Nodup := by
  unfold allPositions
  rw [List.nodup_flatMap]
  constructor
  · intro row _
    exact (List.nodup_finRange 9).map fun a b h => congrArg Prod.snd h
  · apply List.Pairwise.imp ?_ (List.nodup_finRange 9)
    intro r1 r2 hne x hx1 hx2
    rcases List.mem_map.mp hx1 with ⟨c1, -, rfl⟩
    rcases List.mem_map.mp hx2 with ⟨c2, -, h2⟩
    exact hne (congrArg Prod.fst h2).symm

/-! ## Structure of the backtracking search -/

lemma finds_go_acc (f : Grid → List Grid → List Grid)
    (hf : ∀ g sols, f g sols = sols ++ f g []) (g : Grid) (p : Pos) :
    ∀ (ds : List Nat) (sols : List Grid),
      finds_go f g p ds sols = sols ++ finds_go f g p ds [] := by
  intro ds
  induction ds with
  | nil => intro sols; simp [finds_go]
  | cons d ds ih =>
    intro sols
    by_cases hv : is_valid_puzzle (setCell g p d)
    · simp only [finds_go, if_pos hv]
      rw [ih (f (setCell g p d) sols), ih (f (setCell g p d) []),
        hf (setCell g p d) sols, List.append_assoc]
    · simp only [finds_go, if_neg hv]
      rw [ih sols]

lemma find_solutions_acc (digits : List Nat) :
    ∀ (bl : List Pos) (g : Grid) (sols : List Grid),
      find_solutions digits bl g sols = sols ++ find_solutions digits bl g [] := by
  intro bl
  induction bl with
  | nil => intro g sols; simp [find_solutions]
  | cons p rest ih =>
    intro g sols
    simp only [find_solutions]
    exact finds_go_acc _ (fun g2 sols2 => ih g2 sols2) g p digits sols

lemma finds_go_eq_flatten (digits : List Nat) (rest : List Pos) (g : Grid) (p : Pos) :
    ∀ (ds : List Nat) (sols : List Grid),
      finds_go (fun g2 => find_solutions digits rest g2) g p ds sols =
        sols ++ (ds.map fun d => digitBranch digits rest g p d).flatten := by
  intro ds
  induction ds with
  | nil => intro sols; simp [finds_go]
  | cons d ds ih =>
    intro sols
    by_cases hv : is_valid_puzzle (setCell g p d)
    · simp only [finds_go, if_pos hv]
      rw [ih (find_solutions digits rest (setCell g p d) sols),
        find_solutions_acc digits rest (setCell g p d) sols]
      simp only [List.map_cons, List.flatten_cons, digitBranch, if_pos hv,
        List.append_assoc]
    · simp only [finds_go, if_neg hv]
      rw [ih sols]
      simp only [List.map_cons, List.flatten_cons, digitBranch, if_neg hv,
        List.nil_append]

lemma find_solutions_cons_eq (digits : List Nat) (rest : List Pos) (g : Grid) (p : Pos) :
    find_solutions digits (p :: rest) g [] =
      (digits.map fun d => digitBranch digits rest g p d).flatten := by
  simp only [find_solutions]
  rw [finds_go_eq_flatten digits rest g p digits []]
  simp

lemma find_solution_eq_head (digits : List Nat) :
    ∀ (bl : List Pos) (g : Grid),
      find_solution digits bl g = (find_solutions digits bl g []).head? := by
  intro bl
  induction bl with
  | nil => intro g; rfl
  | cons p rest ih =>
    intro g
    have hgo : ∀ ds : List Nat,
        find_go (fun g2 => find_solution digits rest g2) g p ds =
          ((ds.map fun d => digitBranch digits rest g p d).flatten).head? := by
      intro ds
      induction ds with
      | nil => rfl
      | cons d ds ihd =>
        by_cases hv : is_valid_puzzle (setCell g p d)
        · simp only [find_go, if_pos hv]
          rw [ih (setCell g p d)]
          rcases hE : find_solutions digits rest (setCell g p d) [] with _ | ⟨s, ss⟩
          · simp only [List.head?_nil]
            rw [ihd]
            simp [digitBranch, hv, hE]
          · simp [digitBranch, hv, hE]
        · simp only [find_go, if_neg hv]
          rw [ihd]
          simp [digitBranch, hv]
    simp only [find_solution]
    rw [hgo digits, ← find_solutions_cons_eq]

lemma count_solutions_spec (digits : List Nat) :
    ∀ (bl : List Pos) (g : Grid) (c : Nat), c ≤ 1 →
      count_solutions digits bl g c =
        min (c + (find_solutions digits bl g []).length) 2 := by
  intro bl
  induction bl with
  | nil =>
    intro g c hc
    simp only [count_solutions, find_solutions, List.nil_append, List.length_singleton]
    omega
  | cons p rest ih =>
    intro g c hc
    have hgo : ∀ (ds : List Nat) (c : Nat), c ≤ 1 →
        count_go (fun g2 => count_solutions digits rest g2) g p ds c =
          min (c + ((ds.map fun d => digitBranch digits rest g p d).flatten).length) 2 := by
      intro ds
      induction ds with
      | nil =>
        intro c hc
        simp only [count_go, List.map_nil, List.flatten_nil, List.length_nil]
        omega
      | cons d ds ihd =>
        intro c hc
        by_cases hv : is_valid_puzzle (setCell g p d)
        · simp only [count_go, if_pos hv]
          have hrec := ih (setCell g p d) c hc
          by_cases h2 : 1 < count_solutions digits rest (setCell g p d) c
          · rw [if_pos h2]
            simp only [List.map_cons, List.flatten_cons, List.length_append,
              digitBranch, if_pos hv]
            omega
          · rw [if_neg h2]
            rw [ihd _ (by omega)]
            simp only [List.map_cons, List.flatten_cons, List.length_append,
              digitBranch, if_pos hv]
            omega
        · simp only [count_go, if_neg hv]
          rw [ihd c hc]
          simp only [List.map_cons, List.flatten_cons, List.length_append,
            digitBranch, if_neg hv, List.length_nil]
          omega
    simp only [count_solutions]
    rw [hgo digits c hc, find_solutions_cons_eq]

lemma find_solutions_nil_eq (digits : List Nat) (g : Grid) :
    find_solutions digits [] g [] = [g] := rfl

lemma mem_find_solutions_cons (digits : List Nat) (rest : List Pos) (g : Grid)
    (p : Pos) (S : Grid) :
    S ∈ find_solutions digits (p :: rest) g [] ↔
      ∃ d ∈ digits, is_valid_puzzle (setCell g p d) = true ∧
        S ∈ find_solutions digits rest (setCell g p d) [] := by
  rw [find_solutions_cons_eq, List.mem_flatten]
  constructor
  · rintro ⟨l, hl, hS⟩
    rcases List.mem_map.mp hl with ⟨d, hd, rfl⟩
    by_cases hv : is_valid_puzzle (setCell g p d)
    · refine ⟨d, hd, hv, ?_⟩
      rwa [digitBranch, if_pos hv] at hS
    · rw [digitBranch, if_neg hv] at hS
      cases hS
  · rintro ⟨d, hd, hv, hS⟩
    refine ⟨digitBranch digits rest g p d, List.mem_map.mpr ⟨d, hd, rfl⟩, ?_⟩
    rwa [digitBranch, if_pos hv]

lemma find_solutions_valid (digits : List Nat) :
    ∀ (bl : List Pos) (g : Grid), is_valid_puzzle g = true →
      ∀ S ∈ find_solutions digits bl g [], is_valid_puzzle S = true := by
  intro bl
  induction bl with
  | nil =>
    intro g hg S hS
    rw [find_solutions_nil_eq] at hS
    rcases List.mem_singleton.mp hS with rfl
    exact hg
  | cons p rest ih =>
    intro g _ S hS
    rcases (mem_find_solutions_cons digits rest g p S).mp hS with ⟨d, -, hv, hS'⟩
    exact ih (setCell g p d) hv S hS'

lemma find_solutions_agree (digits : List Nat) :
    ∀ (bl : List Pos) (g : Grid), ∀ S ∈ find_solutions digits bl g [],
      ∀ q : Pos, q ∉ bl → S q.1 q.2 = g q.1 q.2 := by
  intro bl
  induction bl with
  | nil =>
    intro g S hS q _
    rw [find_solutions_nil_eq] at hS
    rcases List.mem_singleton.mp hS with rfl
    rfl
  | cons p rest ih =>
    intro g S hS q hq
    rcases (mem_find_solutions_cons digits rest g p S).mp hS with ⟨d, -, -, hS'⟩
    have hq1 : q ≠ p := fun h => hq (h ▸ List.mem_cons_self p rest)
    have hq2 : q ∉ rest := fun h => hq (List.mem_cons_of_mem p h)
    rw [ih (setCell g p d) S hS' q hq2, setCell_of_ne_pos g p q d hq1]

lemma find_solutions_nonzero (digits : List Nat) (hd : ∀ d ∈ digits, d ≠ 0) :
    ∀ (bl : List Pos) (g : Grid), (∀ q : Pos, g q.1 q.2 = 0 → q ∈ bl) →
      ∀ S ∈ find_solutions digits bl g [], ∀ i j : Fin 9, S i j ≠ 0 := by
  intro bl
  induction bl with
  | nil =>
    intro g hg S hS i j
    rw [find_solutions_nil_eq] at hS
    rcases List.mem_singleton.mp hS with rfl
    intro h0
    exact absurd (hg (i, j) h0) (List.not_mem_nil _)
  | cons p rest ih =>
    intro g hg S hS i j
    rcases (mem_find_solutions_cons digits rest g p S).mp hS with ⟨d, hdd, -, hS'⟩
    refine ih (setCell g p d) ?_ S hS' i j
    intro q hq0
    by_cases hqp : q = p
    · subst hqp
      rw [setCell_self] at hq0
      exact absurd hq0 (hd d hdd)
    · rw [setCell_of_ne_pos g p q d hqp] at hq0
      rcases List.mem_cons.mp (hg q hq0) with h | h
      · exact absurd h hqp
      · exact h

/-! ## Validity is monotone under blanking cells -/

lemma filter_nonzero_sublist :
    ∀ (cells : List Pos) (g S : Grid), (∀ i j : Fin 9, g i j = S i j ∨ g i j = 0) →
      List.Sublist ((unitList g cells).filter fun d => d != 0)
        ((unitList S cells).filter fun d => d != 0) := by
  intro cells g S hpt
  induction cells with
  | nil => simp [unitList]
  | cons p cells ih =>
    simp only [unitList, List.map_cons, List.filter_cons] at ih ⊢
    rcases hpt p.1 p.2 with h | h
    · rw [h]
      by_cases h0 : S p.1 p.2 = 0
      · simpa [h0] using ih
      · simpa [h0] using List.Sublist.cons₂ (S p.1 p.2) ih
    · rw [h]
      by_cases h0 : S p.1 p.2 = 0
      · simpa [h0] using ih
      · simpa [h0] using List.Sublist.cons (S p.1 p.2) ih

lemma is_valid_mono (S g : Grid) (hS9 : digitsOk S) (hSv : is_valid_puzzle S = true)
    (hpt : ∀ i j : Fin 9, g i j = S i j ∨ g i j = 0) : is_valid_puzzle g = true := by
  have hg9 : digitsOk g := by
    intro i j
    rcases hpt i j with h | h
    · rw [h]; exact hS9 i j
    · rw [h]; exact Nat.zero_le 9
  rw [is_valid_puzzle_iff_noRepeat g hg9]
  rw [is_valid_puzzle_iff_noRepeat S hS9] at hSv
  intro i
  rcases hSv i with ⟨h1, h2, h3⟩
  unfold noRepeatedNonzero at h1 h2 h3 ⊢
  exact ⟨h1.sublist (filter_nonzero_sublist (rowCells i) g S hpt),
    h2.sublist (filter_nonzero_sublist (colCells i) g S hpt),
    h3.sublist (filter_nonzero_sublist (boxCells i) g S hpt)⟩

/-! ## Completeness of the backtracking search -/

lemma find_go_isSome (f : Grid → Option Grid) (g : Grid) (p : Pos) :
    ∀ ds : List Nat, ∀ d ∈ ds, is_valid_puzzle (setCell g p d) = true →
      (f (setCell g p d)).isSome = true → (find_go f g p ds).isSome = true := by
  intro ds
  induction ds with
  | nil => intro d hd; cases hd
  | cons e ds ih =>
    intro d hd hv hsome
    rcases List.mem_cons.mp hd with rfl | hd'
    · simp only [find_go, if_pos hv]
      rcases hf : f (setCell g p d) with _ | s
      · rw [hf] at hsome
        cases hsome
      · simp
    · by_cases hve : is_valid_puzzle (setCell g p e)
      · simp only [find_go, if_pos hve]
        rcases hf : f (setCell g p e) with _ | s
        · exact ih d hd' hv hsome
        · simp
      · simp only [find_go, if_neg hve]
        exact ih d hd' hv hsome

lemma find_solution_isSome (digits : List Nat) (S : Grid) (hS9 : digitsOk S)
    (hSv : is_valid_puzzle S = true) (hSd : ∀ i j : Fin 9, S i j ∈ digits) :
    ∀ bl : List Pos, bl.Nodup → ∀ g : Grid,
      (∀ q : Pos, q ∈ bl → g q.1 q.2 = 0) →
      (∀ q : Pos, q ∉ bl → g q.1 q.2 = S q.1 q.2) →
      (find_solution digits bl g).isSome = true := by
  intro bl
  induction bl with
  | nil => intro _ g _ _; rfl
  | cons p rest ih =>
    intro hnd g hin hout
    rcases List.nodup_cons.mp hnd with ⟨hp, hnd'⟩
    simp only [find_solution]
    have hvalid : is_valid_puzzle (setCell g p (S p.1 p.2)) = true := by
      apply is_valid_mono S _ hS9 hSv
      intro i j
      by_cases hq : ((i, j) : Pos) = p
      · left
        rw [show setCell g p (S p.1 p.2) i j = setCell g p (S p.1 p.2) ((i, j) : Pos).1 ((i, j) : Pos).2 from rfl,
          hq, setCell_self]
        rw [← hq]
      · rw [show setCell g p (S p.1 p.2) i j = setCell g p (S p.1 p.2) ((i, j) : Pos).1 ((i, j) : Pos).2 from rfl,
          setCell_of_ne_pos g p ((i, j) : Pos) _ hq]
        by_cases hr : ((i, j) : Pos) ∈ rest
        · right
          exact hin (i, j) (List.mem_cons_of_mem p hr)
        · left
          exact hout (i, j) (fun hmem => by
            rcases List.mem_cons.mp hmem with h | h
            · exact hq h
            · exact hr h)
    apply find_go_isSome _ g p digits (S p.1 p.2) (hSd p.1 p.2) hvalid
    apply ih hnd'
    · intro q hq
      have hqp : q ≠ p := fun h => hp (h ▸ hq)
      rw [setCell_of_ne_pos g p q _ hqp]
      exact hin q (List.mem_cons_of_mem p hq)
    · intro q hq
      by_cases hqp : q = p
      · subst hqp
        rw [setCell_self]
      · rw [setCell_of_ne_pos g p q _ hqp]
        exact hout q (fun hmem => by
          rcases List.mem_cons.mp hmem with h | h
          · exact hqp h
          · exact hq h)

/-! ## Properties of the generator pipeline -/

lemma mem_of_head_some {α : Type} {l : List α} {a : α} (h : l.head? = some a) :
    a ∈ l := by
  rcases l with _ | ⟨b, l⟩
  · cases h
  · rw [List.head?_cons] at h
    cases h
    exact List.mem_cons_self _ _

lemma find_solution_mem (digits : List Nat) (bl : List Pos) (g s : Grid)
    (h : find_solution digits bl g = some s) : s ∈ find_solutions digits bl g [] := by
  rw [find_solution_eq_head] at h
  exact mem_of_head_some h

lemma create_random_solution_props (digits : List Nat) (hd0 : ∀ d ∈ digits, d ≠ 0)
    (s : Grid) (h : create_random_solution digits = some s) :
    is_valid_puzzle s = true ∧ (∀ i j : Fin 9, s i j ≠ 0) ∧
      has_unique_solution s = true := by
  have hmem : s ∈ find_solutions digits allPositions emptyGrid [] :=
    find_solution_mem digits allPositions emptyGrid s h
  have hvempty : is_valid_puzzle emptyGrid = true := by decide
  have hvalid : is_valid_puzzle s = true :=
    find_solutions_valid digits allPositions emptyGrid hvempty s hmem
  have hnz : ∀ i j : Fin 9, s i j ≠ 0 :=
    find_solutions_nonzero digits hd0 allPositions emptyGrid
      (fun q _ => mem_allPositions q) s hmem
  refine ⟨hvalid, hnz, ?_⟩
  unfold has_unique_solution
  rw [hvalid, (blanks_isEmpty_iff s).mpr hnz]
  rfl

lemma carve_loop_unique :
    ∀ (ps : List Pos) (g : Grid) (count created : Nat),
      has_unique_solution g = true →
      has_unique_solution (carve_loop g ps count created) = true := by
  intro ps
  induction ps with
  | nil => intro g count created hg; exact hg
  | cons p ps ih =>
    intro g count created hg
    by_cases hstop : created = count
    · simp only [carve_loop, if_pos hstop]
      exact hg
    · simp only [carve_loop, if_neg hstop]
      by_cases hu : has_unique_solution (setCell g p 0)
      · rw [if_pos hu]
        exact ih _ count _ hu
      · rw [if_neg hu]
        exact ih _ count _ hg

lemma create_random_blank_positions_unique (g : Grid) (count : Nat) (ps : List Pos)
    (hg : has_unique_solution g = true) :
    has_unique_solution ((create_random_blank_positions g count ps).getD g) = true := by
  unfold create_random_blank_positions
  by_cases hr : 1 ≤ count ∧ count ≤ MAX_BLANKS_TO_GENERATE
  · rw [if_pos hr, Option.getD_some]
    exact carve_loop_unique ps g count 0 hg
  · rw [if_neg hr]
    exact hg

lemma create_random_blank_row_some (g : Grid) :
    ∀ (rs : List (Fin 9)) (r : Grid), create_random_blank_row g rs = some r →
      has_unique_solution r = true := by
  intro rs
  induction rs with
  | nil => intro r h; cases h
  | cons a rs ih =>
    intro r h
    simp only [create_random_blank_row] at h
    by_cases hu : has_unique_solution (blankRow g a)
    · rw [if_pos hu] at h
      cases h
      exact hu
    · rw [if_neg hu] at h
      exact ih r h

lemma create_random_blank_col_some (g : Grid) :
    ∀ (cs : List (Fin 9)) (r : Grid), create_random_blank_col g cs = some r →
      has_unique_solution r = true := by
  intro cs
  induction cs with
  | nil => intro r h; cases h
  | cons a cs ih =>
    intro r h
    simp only [create_random_blank_col] at h
    by_cases hu : has_unique_solution (blankCol g a)
    · rw [if_pos hu] at h
      cases h
      exact hu
    · rw [if_neg hu] at h
      exact ih r h

lemma generate_from_unique (s : Grid) (positions : List Pos) (rows cols : List (Fin 9))
    (hs : has_unique_solution s = true) :
    has_unique_solution (generate_from s positions rows cols) = true := by
  unfold generate_from
  dsimp only
  have h1 := create_random_blank_positions_unique s TARGET_BLANKS_TO_GENERATE positions hs
  set p1 := (create_random_blank_positions s TARGET_BLANKS_TO_GENERATE positions).getD s
  have h2 : has_unique_solution ((create_random_blank_row p1 rows).getD p1) = true := by
    rcases hrow : create_random_blank_row p1 rows with _ | r
    · rw [Option.getD_none]
      exact h1
    · rw [Option.getD_some]
      exact create_random_blank_row_some p1 rows r hrow
  set p2 := (create_random_blank_row p1 rows).getD p1
  rcases hcol : create_random_blank_col p2 cols with _ | r
  · rw [Option.getD_none]
    exact h2
  · rw [Option.getD_some]
    exact create_random_blank_col_some p2 cols r hcol

lemma create_random_solution_isSome (digits : List Nat)
    (hperm : digits.Perm DIGITS_ARRAY) :
    (create_random_solution digits).isSome = true := by
  unfold create_random_solution
  refine find_solution_isSome digits SEED_SOLUTION (by decide) (by decide) ?_
    allPositions allPositions_nodup emptyGrid (fun q _ => rfl)
    (fun q hq => absurd (mem_allPositions q) hq)
  intro i j
  rw [hperm.mem_iff]
  revert j
  revert i
  decide

lemma has_unique_iff_length (g : Grid) :
    has_unique_solution g = true ↔ (solve g).length = 1 := by
  unfold has_unique_solution solve
  by_cases hv : is_valid_puzzle g
  · by_cases hb : (blanks g).isEmpty
    · simp [hv, hb]
    · simp only [hv, Bool.not_true, Bool.false_eq_true, if_false, hb]
      rw [count_solutions_spec DIGITS_ARRAY (blanks g) g 0 (by omega)]
      simp only [Nat.zero_add, beq_iff_eq]
      omega
  · simp [hv]

/-! ## The claims -/

/-- C1: for every grid with digits in `[0,9]`, `has_unique_solution`
returns true iff `solve` returns a list of length exactly 1 (an invalid
or unsolvable grid yields false, since `solve` is then empty). -/
theorem C1_has_unique_solution_iff (g : Grid) (hg : digitsOk g) :
    has_unique_solution g = true ↔ (solve g).length = 1 :=
  has_unique_iff_length g

theorem C1_witness :
    digitsOk ONE_BLANK ∧
      (has_unique_solution ONE_BLANK = true ↔ (solve ONE_BLANK).length = 1) :=
  ⟨by decide, C1_has_unique_solution_iff ONE_BLANK (by decide)⟩

/-- C5: a grid that fails the validity check solves to the empty list and
to the absent value, with no error (both operations are total). -/
theorem C5_invalid_grid_no_solution (g : Grid) (h : is_valid_puzzle g = false) :
    solve g = [] ∧ solve_any g = none := by
  unfold solve solve_any
  rw [h]
  exact ⟨rfl, rfl⟩

theorem C5_witness :
    is_valid_puzzle INVALID_GRID = false ∧
      solve INVALID_GRID = [] ∧ solve_any INVALID_GRID = none :=
  ⟨by decide, C5_invalid_grid_no_solution INVALID_GRID (by decide)⟩

/-- C7: during the uniqueness-counting search the counter never exceeds 2
(from any start value at most 1), and on a valid grid the search leaves the
counter at exactly `min (number of solutions) 2`. -/
theorem C7_count_solutions_saturates (g : Grid) (hv : is_valid_puzzle g = true) :
    count_solutions DIGITS_ARRAY (blanks g) g 0 = min (solve g).length 2 ∧
      ∀ (bl : List Pos) (h : Grid) (c : Nat), c ≤ 1 →
        count_solutions DIGITS_ARRAY bl h c ≤ 2 := by
  constructor
  · unfold solve
    by_cases hb : (blanks g).isEmpty
    · rw [List.isEmpty_iff] at hb
      rw [hb]
      simp [hv, count_solutions]
    · simp only [hv, Bool.not_true, Bool.false_eq_true, if_false, hb]
      rw [count_solutions_spec DIGITS_ARRAY (blanks g) g 0 (by omega)]
      omega
  · intro bl h c hc
    rw [count_solutions_spec DIGITS_ARRAY bl h c hc]
    omega

theorem C7_witness :
    is_valid_puzzle ONE_BLANK = true ∧
      count_solutions DIGITS_ARRAY (blanks ONE_BLANK) ONE_BLANK 0 =
        min (solve ONE_BLANK).length 2 :=
  ⟨by decide, (C7_count_solutions_saturates ONE_BLANK (by decide)).1⟩

/-- C9: each unit accessor fails (returns no view) on any index outside
`[0,8]`, rather than wrapping the index or returning another unit. -/
theorem C9_slice_out_of_range (g : Grid) (i : Nat) (h : 9 ≤ i) :
    horizontal_slice g i = none ∧ vertical_slice g i = none ∧
      square_slice g i = none := by
  refine ⟨?_, ?_, ?_⟩
  · unfold horizontal_slice
    rw [dif_neg (by omega)]
  · unfold vertical_slice
    rw [dif_neg (by omega)]
  · obtain ⟨k, rfl⟩ : ∃ k, i = k + 9 := ⟨i - 9, by omega⟩
    rfl

theorem C9_witness :
    9 ≤ 9 ∧ (horizontal_slice emptyGrid 9 = none ∧
      vertical_slice emptyGrid 9 = none ∧ square_slice emptyGrid 9 = none) :=
  ⟨by decide, C9_slice_out_of_range emptyGrid 9 (by decide)⟩

/-- C10: a blank-count request outside the allowed bound `1..=64` makes the
carving step return the absent value without carving, and the caller's
fallback keeps the grid unmodified; the operation is total (no crash). -/
theorem C10_blank_count_rejected (g : Grid) (ps : List Pos) (count : Nat)
    (h : ¬(1 ≤ count ∧ count ≤ MAX_BLANKS_TO_GENERATE)) :
    create_random_blank_positions g count ps = none ∧
      (create_random_blank_positions g count ps).getD g = g := by
  unfold create_random_blank_positions
  rw [if_neg h]
  exact ⟨rfl, rfl⟩

theorem C10_witness :
    ¬(1 ≤ 65 ∧ 65 ≤ MAX_BLANKS_TO_GENERATE) ∧
      (create_random_blank_positions emptyGrid 65 [] = none ∧
        (create_random_blank_positions emptyGrid 65 []).getD emptyGrid = emptyGrid) :=
  ⟨by decide, C10_blank_count_rejected emptyGrid [] 65 (by decide)⟩

lemma solve_any_eq_head (g : Grid) : solve_any g = (solve g).head? := by
  unfold solve_any solve
  by_cases hv : is_valid_puzzle g
  · by_cases hb : (blanks g).isEmpty
    · simp [hv, hb]
    · simp only [hv, Bool.not_true, Bool.false_eq_true, if_false, hb]
      exact find_solution_eq_head DIGITS_ARRAY (blanks g) g
  · simp [hv]

lemma solve_mem_props (g : Grid) :
    ∀ S ∈ solve g, is_valid_puzzle S = true ∧ (∀ i j : Fin 9, S i j ≠ 0) ∧
      ∀ i j : Fin 9, g i j ≠ 0 → S i j = g i j := by
  intro S hS
  unfold solve at hS
  by_cases hv : is_valid_puzzle g
  · by_cases hb : (blanks g).isEmpty
    · simp only [hv, Bool.not_true, Bool.false_eq_true, if_false, hb, if_true] at hS
      rcases List.mem_singleton.mp hS with rfl
      exact ⟨hv, fun i j => (blanks_isEmpty_iff S).mp hb i j, fun i j _ => rfl⟩
    · simp only [hv, Bool.not_true, Bool.false_eq_true, if_false, hb] at hS
      refine ⟨find_solutions_valid DIGITS_ARRAY (blanks g) g hv S hS, ?_, ?_⟩
      · exact find_solutions_nonzero DIGITS_ARRAY (by decide) (blanks g) g
          (fun q hq => (mem_blanks g q).mpr hq) S hS
      · intro i j hij
        exact find_solutions_agree DIGITS_ARRAY (blanks g) g S hS (i, j)
          (fun hmem => hij ((mem_blanks g (i, j)).mp hmem))
  · simp [hv] at hS

/-- C3: for every grid with digits in `[0,9]`, the validity check holds iff
every row, column and box (index 0..8) contains no repeated nonzero digit. -/
theorem C3_is_valid_puzzle_iff (g : Grid) (hg : digitsOk g) :
    is_valid_puzzle g = true ↔
      ∀ i : Fin 9, noRepeatedNonzero (unitList g (rowCells i)) ∧
        noRepeatedNonzero (unitList g (colCells i)) ∧
        noRepeatedNonzero (unitList g (boxCells i)) :=
  is_valid_puzzle_iff_noRepeat g hg

theorem C3_witness :
    digitsOk INVALID_GRID ∧
      (is_valid_puzzle INVALID_GRID = true ↔
        ∀ i : Fin 9, noRepeatedNonzero (unitList INVALID_GRID (rowCells i)) ∧
          noRepeatedNonzero (unitList INVALID_GRID (colCells i)) ∧
          noRepeatedNonzero (unitList INVALID_GRID (boxCells i))) :=
  ⟨by decide, C3_is_valid_puzzle_iff INVALID_GRID (by decide)⟩

/-- C4: every grid in `solve g` (and the grid of `solve_any g`, when
present) passes the validity check, contains no zero cell, and agrees with
`g` wherever `g` holds a nonzero digit. -/
theorem C4_solutions_extend_puzzle (g : Grid) (hg : digitsOk g) :
    (∀ S ∈ solve g, is_valid_puzzle S = true ∧ (∀ i j : Fin 9, S i j ≠ 0) ∧
      ∀ i j : Fin 9, g i j ≠ 0 → S i j = g i j) ∧
    ∀ S : Grid, solve_any g = some S →
      is_valid_puzzle S = true ∧ (∀ i j : Fin 9, S i j ≠ 0) ∧
        ∀ i j : Fin 9, g i j ≠ 0 → S i j = g i j := by
  refine ⟨solve_mem_props g, ?_⟩
  intro S hS
  rw [solve_any_eq_head g] at hS
  exact solve_mem_props g S (mem_of_head_some hS)

theorem C4_witness :
    digitsOk ONE_BLANK ∧
      ((∀ S ∈ solve ONE_BLANK, is_valid_puzzle S = true ∧
          (∀ i j : Fin 9, S i j ≠ 0) ∧
          ∀ i j : Fin 9, ONE_BLANK i j ≠ 0 → S i j = ONE_BLANK i j) ∧
        ∀ S : Grid, solve_any ONE_BLANK = some S →
          is_valid_puzzle S = true ∧ (∀ i j : Fin 9, S i j ≠ 0) ∧
            ∀ i j : Fin 9, ONE_BLANK i j ≠ 0 → S i j = ONE_BLANK i j) :=
  ⟨by decide, C4_solutions_extend_puzzle ONE_BLANK (by decide)⟩

/-- C8: blanking any subset of cells of a valid solved grid (no blanks, no
unit conflict) never introduces a unit conflict: the result still passes
the validity check. -/
theorem C8_blanking_preserves_validity (g : Grid) (ps : Pos → Bool)
    (hg : digitsOk g) (hv : is_valid_puzzle g = true)
    (hsolved : ∀ i j : Fin 9, g i j ≠ 0) :
    is_valid_puzzle (blankOut g ps) = true := by
  apply is_valid_mono g _ hg hv
  intro i j
  unfold blankOut
  by_cases h : ps (i, j)
  · rw [if_pos h]
    right
    rfl
  · rw [if_neg h]
    left
    rfl

theorem C8_witness :
    (digitsOk SEED_SOLUTION ∧ is_valid_puzzle SEED_SOLUTION = true ∧
        ∀ i j : Fin 9, SEED_SOLUTION i j ≠ 0) ∧
      is_valid_puzzle
        (blankOut SEED_SOLUTION fun p => decide (p.1 = 0)) = true :=
  ⟨⟨by decide, by decide, by decide⟩,
    C8_blanking_preserves_validity SEED_SOLUTION _ (by decide) (by decide)
      (by decide)⟩

/-- C2: for every outcome of the four random shuffles (the digit shuffle
being a permutation of 1..=9), `generate` returns a puzzle that is
solvable with exactly one solution: `has_unique_solution` holds of it and
`solve` returns a singleton list. -/
theorem C2_generate_unique (digits : List Nat) (positions : List Pos)
    (rows cols : List (Fin 9)) (hperm : digits.Perm DIGITS_ARRAY) :
    ∃ P : Grid, generate digits positions rows cols = some P ∧
      has_unique_solution P = true ∧ (solve P).length = 1 := by
  have hsome := create_random_solution_isSome digits hperm
  rcases hs : create_random_solution digits with _ | s
  · rw [hs] at hsome
    cases hsome
  · have hd0 : ∀ d ∈ digits, d ≠ 0 := by
      have h9 : ∀ d ∈ DIGITS_ARRAY, d ≠ 0 := by decide
      intro d hd
      exact h9 d (hperm.mem_iff.mp hd)
    rcases create_random_solution_props digits hd0 s hs with ⟨-, -, huniq⟩
    have hgen : has_unique_solution (generate_from s positions rows cols) = true :=
      generate_from_unique s positions rows cols huniq
    refine ⟨generate_from s positions rows cols, ?_, hgen, ?_⟩
    · unfold generate
      rw [hs]
      rfl
    · rw [← has_unique_iff_length]
      exact hgen

theorem C2_witness :
    ∃ P : Grid, generate DIGITS_ARRAY [] [] [] = some P ∧
      has_unique_solution P = true ∧ (solve P).length = 1 :=
  C2_generate_unique DIGITS_ARRAY [] [] [] (List.Perm.refl DIGITS_ARRAY)

/-! ## Order of the solutions found by the exhaustive search -/

lemma pairwise_find_solutions (digits : List Nat)
    (hsort : digits.Pairwise (· < ·)) :
    ∀ bl : List Pos, bl.Nodup → ∀ g : Grid,
      (find_solutions digits bl g []).Pairwise (gridLexLt bl) := by
  intro bl
  induction bl with
  | nil =>
    intro _ g
    rw [find_solutions_nil_eq]
    exact List.pairwise_singleton _ _
  | cons p rest ih =>
    intro hnd g
    rcases List.nodup_cons.mp hnd with ⟨hp, hnd'⟩
    rw [find_solutions_cons_eq, List.pairwise_flatten]
    constructor
    · intro l hl
      rcases List.mem_map.mp hl with ⟨d, hd, rfl⟩
      unfold digitBranch
      by_cases hv : is_valid_puzzle (setCell g p d)
      · rw [if_pos hv]
        apply List.Pairwise.imp_of_mem ?_ (ih hnd' (setCell g p d))
        intro S T hS hT hlex
        have hSp : S p.1 p.2 = d := by
          rw [find_solutions_agree digits rest (setCell g p d) S hS p hp,
            setCell_self]
        have hTp : T p.1 p.2 = d := by
          rw [find_solutions_agree digits rest (setCell g p d) T hT p hp,
            setCell_self]
        exact Or.inr ⟨hSp.trans hTp.symm, hlex⟩
      · rw [if_neg hv]
        exact List.Pairwise.nil
    · rw [List.pairwise_map]
      apply List.Pairwise.imp_of_mem ?_ hsort
      intro d e hd he hlt S hS T hT
      unfold digitBranch at hS hT
      by_cases hvd : is_valid_puzzle (setCell g p d)
      · rw [if_pos hvd] at hS
        by_cases hve : is_valid_puzzle (setCell g p e)
        · rw [if_pos hve] at hT
          have hSp : S p.1 p.2 = d := by
            rw [find_solutions_agree digits rest (setCell g p d) S hS p hp,
              setCell_self]
          have hTp : T p.1 p.2 = e := by
            rw [find_solutions_agree digits rest (setCell g p e) T hT p hp,
              setCell_self]
          exact Or.inl (by rw [hSp, hTp]; exact hlt)
        · rw [if_neg hve] at hT
          cases hT
      · rw [if_neg hvd] at hS
        cases hS

/-- C6: `solve_any` is exactly the head of `solve`'s result (present iff
`solve` is non-empty); both are deterministic, and `solve` lists its
solutions in strictly increasing lexicographic order with respect to the
row-major blank order and the increasing digit order. -/
theorem C6_solve_any_head_and_order (g : Grid) (hg : digitsOk g) :
    solve_any g = (solve g).head? ∧
      (solve g).Pairwise (gridLexLt (blanks g)) := by
  refine ⟨solve_any_eq_head g, ?_⟩
  unfold solve
  by_cases hv : is_valid_puzzle g
  · by_cases hb : (blanks g).isEmpty
    · simp only [hv, Bool.not_true, Bool.false_eq_true, if_false, hb, if_true]
      exact List.pairwise_singleton _ _
    · simp only [hv, Bool.not_true, Bool.false_eq_true, if_false, hb]
      exact pairwise_find_solutions DIGITS_ARRAY (by decide) (blanks g)
        (blanks_nodup g) g
  · simp [hv]

theorem C6_witness :
    digitsOk ONE_BLANK ∧
      (solve_any ONE_BLANK = (solve ONE_BLANK).head? ∧
        (solve ONE_BLANK).Pairwise (gridLexLt (blanks ONE_BLANK))) :=
  ⟨by decide, C6_solve_any_head_and_order ONE_BLANK (by decide)⟩
